import Mathlib

/-
  Verification development for the direct-deposit data update script
  (src/update_data.py).

  Modelling conventions:
  - Python strings are List Char; f-string concatenation is list append.
  - Machine-independent values: SQL counts are Int, monetary amounts are
    rationals.  The exact decimal text that Python float repr produces is the
    one thing not modelled numerically: serialization takes a rendering
    function fr from rationals to character lists standing for repr(float).
  - Fallible Python code returns Except PyErr; an Option result on the file
    writer distinguishes the raise-without-write path (none) from a completed
    write (some content).
  - The Snowflake connection is the external collaborator: it is modelled by
    the result sets its cursor fetches return for given date bounds, each
    fetch being fallible.
-/

set_option maxHeartbeats 4000000
set_option maxRecDepth 100000

namespace DirectDeposit

/-- Python exceptions the script raises or observes from its collaborators. -/
inductive PyErr where
  | typeError : String → PyErr
  | valueError : String → PyErr
  | dbError : String → PyErr
deriving DecidableEq

deriving instance DecidableEq for Except

/-- Python slice test s[i:i+len(pat)] == pat, on character lists. -/
def matchesAt (s pat : List Char) (i : Nat) : Bool :=
  decide ((s.drop i).take pat.length = pat)

/-- Fuel-driven left-to-right scan underlying str.find. -/
def findIdxAux (s pat : List Char) : Nat → Nat → Option Nat
  | 0, _ => none
  | fuel + 1, i => if matchesAt s pat i then some i else findIdxAux s pat fuel (i + 1)

/-- First index j with i ≤ j ≤ s.length at which pat occurs in s, if any. -/
def findIdx (s pat : List Char) (i : Nat) : Option Nat :=
  findIdxAux s pat (s.length + 1 - i) i

/-- Python str.find(pat, start): a negative start counts from the end of the
string clamped at zero, and the result is -1 when the pattern is absent. -/
def pyFind (s pat : List Char) (start : Int) : Int :=
  let st : Nat := if start < 0 then ((s.length : Int) + start).toNat else start.toNat
  match findIdx s pat st with
  | some j => (j : Int)
  | none => -1

/-- Characters Python str.strip removes (ASCII whitespace). -/
def isPySpace (c : Char) : Bool :=
  c = ' ' || c = '\t' || c = '\n' || c = '\r' || c = '\x0b' || c = '\x0c'

/-- Python str.strip(): drop whitespace from both ends. -/
def pyStrip (s : List Char) : List Char :=
  ((s.dropWhile isPySpace).reverse.dropWhile isPySpace).reverse

/-- Summary statistics dictionary built at lines 46-51 of the source. -/
structure SummaryStats where
  uniqueUsers : Int
  totalTransactions : Int
  totalVolume : ℚ
  avgDeposit : ℚ
deriving DecidableEq

/-- One amount bucket entry, as built at line 81 of the source. -/
structure Bucket where
  range : List Char
  count : Int
deriving DecidableEq

/-- One institution aggregate, as built at lines 107-108 of the source. -/
structure InstitutionAgg where
  name : List Char
  count : Int
  volume : ℚ
deriving DecidableEq

/-- The four aggregate structures stored per date range (lines 161-166). -/
structure RangeSnapshot where
  summary : SummaryStats
  buckets : List Bucket
  topByFrequency : List InstitutionAgg
  topByVolume : List InstitutionAgg
deriving DecidableEq

/-- The data cache assembled by query_all_data: an insertion-ordered mapping
from range key to snapshot, modelled as an association list. -/
abbrev Cache := List (List Char × RangeSnapshot)

/-- The Snowflake connection collaborator, modelled by the result sets the
four cursor fetches return for given start and end dates.  Every fetch can
fail (connection or query error), which in Python raises through the caller. -/
structure Conn where
  summaryRow : List Char → List Char → Except PyErr (Int × Int × Option ℚ × Option ℚ)
  bucketRows : List Char → List Char → Except PyErr (List (List Char × Int))
  freqRows : List Char → List Char → Except PyErr (List (List Char × Int × ℚ))
  volRows : List Char → List Char → Except PyErr (List (List Char × Int × ℚ))

/-- One row of the MART_SRDF_POSTED_TRANSACTIONS table, restricted to the
columns the queries of the script read. -/
structure Txn where
  prn : List Char
  transaction_amount : ℚ
  transaction_code : List Char
  post_date : List Char
  ach_institution_name : Option (List Char)

/-- Lexicographic order on character lists; on ISO dates it coincides with
chronological order, matching the SQL comparison of POST_DATE with the
interpolated date literals. -/
def lexLe : List Char → List Char → Bool
  | [], _ => true
  | _ :: _, [] => false
  | a :: as, b :: bs => if a = b then lexLe as bs else decide (a < b)

/-- The WHERE clause shared by all four queries (lines 37-39):
TRANSACTION_CODE = PMOF and POST_DATE within the inclusive range. -/
def txnMatches (s e : List Char) (t : Txn) : Bool :=
  decide (t.transaction_code = "PMOF".data) && lexLe s t.post_date && lexLe t.post_date e

/-- SQL semantics of the summary query (lines 30-40) over a table state: the
single row fetchone returns.  Over zero matching rows SQL COUNT is 0 while
SUM and AVG are NULL, hence the Option results. -/
def sqlSummaryRow (txns : List Txn) (s e : List Char) : Int × Int × Option ℚ × Option ℚ :=
  let m := txns.filter (txnMatches s e)
  ( ((m.map Txn.prn).dedup).length,
    m.length,
    match m with
    | [] => none
    | _ :: _ => some ((m.map Txn.transaction_amount).sum),
    match m with
    | [] => none
    | _ :: _ => some (((m.map Txn.transaction_amount).sum) / (m.length : ℚ)) )

/-- Python float(x) applied to a fetched aggregate: float of an SQL NULL,
which the driver returns as Python None, raises a TypeError. -/
def pyFloat : Option ℚ → Except PyErr ℚ
  | some q => Except.ok q
  | none => Except.error (PyErr.typeError "float() argument must be a string or a real number, not NoneType")

/-- Lines 28-51: query_summary_stats, given the row its cursor fetch
produced.  It converts the two counts with int() and the two monetary
aggregates with float(), in dictionary-literal order. -/
def query_summary_stats (fetched : Except PyErr (Int × Int × Option ℚ × Option ℚ)) :
    Except PyErr SummaryStats := do
  let result ← fetched
  let tv ← pyFloat result.2.2.1
  let ad ← pyFloat result.2.2.2
  Except.ok (SummaryStats.mk result.1 result.2.1 tv ad)

/-- The fixed bucket label list of line 79-80, in ascending order of the
lower amount bound of each bucket (1, 250, 500, 750, 1000, 1500, 2500). -/
def bucket_order : List (List Char) :=
  ["$1-$250".data, "$250-$500".data, "$500-$750".data, "$750-$1,000".data,
   "$1,000-$1,500".data, "$1,500-$2,500".data, "$2,500+".data]

/-- Python list.index as a partial lookup: position of the first occurrence,
none when the element is absent (where Python raises ValueError). -/
def pyListIndex : List (List Char) → List Char → Option Nat
  | [], _ => none
  | y :: ys, x => if y = x then some 0 else (pyListIndex ys x).map (fun n => n + 1)

/-- Sort key of line 82: bucket_order.index of the bucket label.  The getD
default is only reached on labels outside bucket_order, where the Python
sort raises instead of returning. -/
def bucketSortKey (b : Bucket) : Nat := (pyListIndex bucket_order b.range).getD 0

/-- Comparison relation of the bucket sort at line 82. -/
def bucketKeyLe (a b : Bucket) : Prop := bucketSortKey a ≤ bucketSortKey b

instance : DecidableRel bucketKeyLe :=
  fun a b => inferInstanceAs (Decidable (bucketSortKey a ≤ bucketSortKey b))

/-- Lines 53-84: query_buckets, given the rows its cursor fetch produced.
It wraps each (label, count) row into a dictionary and sorts by
bucket_order.index; a label outside bucket_order makes index raise
ValueError, so no list is returned.  Python list.sort is a stable sort, so
any stable sort by the same key computes the same list; insertionSort on
this decidable total preorder is stable. -/
def query_buckets (fetched : Except PyErr (List (List Char × Int))) :
    Except PyErr (List Bucket) := do
  let results ← fetched
  let buckets := results.map (fun rc => Bucket.mk rc.1 rc.2)
  if buckets.all (fun b => (pyListIndex bucket_order b.range).isSome) then
    Except.ok (List.insertionSort bucketKeyLe buckets)
  else
    Except.error (PyErr.valueError "is not in list")

/-- Lines 86-108: query_top_by_frequency, given the rows its cursor fetch
produced: each (name, count, volume) row becomes a dictionary with the name
passed through str(...).strip(). -/
def query_top_by_frequency (fetched : Except PyErr (List (List Char × Int × ℚ))) :
    Except PyErr (List InstitutionAgg) := do
  let results ← fetched
  Except.ok (results.map (fun r => InstitutionAgg.mk (pyStrip r.1) r.2.1 r.2.2))

/-- Lines 110-132: query_top_by_volume, identical post-processing to the
frequency variant; only the SQL ORDER BY differs, which lives in the
collaborator. -/
def query_top_by_volume (fetched : Except PyErr (List (List Char × Int × ℚ))) :
    Except PyErr (List InstitutionAgg) := do
  let results ← fetched
  Except.ok (results.map (fun r => InstitutionAgg.mk (pyStrip r.1) r.2.1 r.2.2))

/-- Proleptic Gregorian calendar date (year, month, day) of a day count with
1970-01-01 as day 0; the standard civil-from-days algorithm.  Python
datetime uses the same proleptic Gregorian calendar, and subtracting a
timedelta of whole days from a naive datetime shifts the date component by
exactly that many days. -/
def civilFromDays (z0 : Int) : Int × Int × Int :=
  let z := z0 + 719468
  let era := z / 146097
  let doe := z - era * 146097
  let yoe := (doe - doe / 1460 + doe / 36524 - doe / 146096) / 365
  let y := yoe + era * 400
  let doy := doe - (365 * yoe + yoe / 4 - yoe / 100)
  let mp := (5 * doy + 2) / 153
  let d := doy - (153 * mp + 2) / 5 + 1
  let m := if mp < 10 then mp + 3 else mp - 9
  (y + (if m ≤ 2 then 1 else 0), m, d)

/-- Decimal digit character. -/
def digitChar (n : Nat) : Char := Char.ofNat (48 + n % 10)

/-- Fuel-driven decimal digits of a natural number, most significant first. -/
def natDigits : Nat → Nat → List Char
  | 0, _ => []
  | fuel + 1, n => if n < 10 then [digitChar n] else natDigits fuel (n / 10) ++ [digitChar (n % 10)]

/-- Decimal representation of a natural number. -/
def natRepr (n : Nat) : List Char := natDigits (n + 1) n

/-- Zero-padded decimal of width w, as the strftime fields use. -/
def pad0 (w n : Nat) : List Char := List.replicate (w - (natRepr n).length) '0' ++ natRepr n

/-- The current instant, reduced to date granularity: a day count with
1970-01-01 as day 0.  The source obtains it from datetime.now(); here it is
injected so the planner is a pure function of it. -/
structure PyDate where
  days : Int
deriving DecidableEq

/-- strftime of a date with format percent-Y dash percent-m dash percent-d:
zero-padded YYYY-MM-DD. -/
def fmtDate (t : PyDate) : List Char :=
  let c := civilFromDays t.days
  pad0 4 c.1.toNat ++ '-' :: pad0 2 c.2.1.toNat ++ '-' :: pad0 2 c.2.2.toNat

/-- Python date minus timedelta(days = n). -/
def subDays (t : PyDate) (n : Int) : PyDate := ⟨t.days - n⟩

/-- Lines 134-149: get_date_ranges.  A Python dict literal preserves
insertion order, so the planner output is the ordered list of
(name, (start, end)) entries. -/
def get_date_ranges (today : PyDate) : List (String × List Char × List Char) :=
  [ ("last_30", fmtDate (subDays today 30), fmtDate today),
    ("last_60", fmtDate (subDays today 60), fmtDate today),
    ("last_90", fmtDate (subDays today 90), fmtDate today),
    ("august_2025", "2025-08-01".data, "2025-08-31".data),
    ("september_2025", "2025-09-01".data, "2025-09-30".data),
    ("october_2025", "2025-10-01".data, "2025-10-31".data),
    ("november_2025", "2025-11-01".data, "2025-11-30".data) ]

/-- What happened to the Snowflake connection over one run. -/
inductive ConnFate where
  | neverAcquired : ConnFate
  | released : ConnFate
  | leaked : ConnFate
deriving DecidableEq

/-- Python dict assignment d[k] = v on the insertion-ordered association
list: when the key is already present its entry is overwritten in place
(keeping its original position in insertion order), otherwise the new entry
is appended.  A dict never holds duplicate keys, and dictAssign never
creates one. -/
def dictAssign (d : Cache) (k : List Char) (v : RangeSnapshot) : Cache :=
  if k ∈ d.map Prod.fst then
    d.map (fun kv => if kv.1 = k then (k, v) else kv)
  else d ++ [(k, v)]

/-- The per-range loop of query_all_data (lines 157-166): for each planned
range in order, run the four queries in source order and assign the snapshot
into the dict under the key start underscore end; the first exception aborts
the loop.  The accumulator is the dict built so far, so a repeated key
(for example when a rolling window coincides with a calendar-month window)
overwrites the earlier entry exactly as Python dict assignment does. -/
def qadLoop (conn : Conn) :
    List (String × List Char × List Char) → Cache → Except PyErr Cache
  | [], acc => Except.ok acc
  | (_, s, e) :: rest, acc => do
    let summary ← query_summary_stats (conn.summaryRow s e)
    let buckets ← query_buckets (conn.bucketRows s e)
    let topF ← query_top_by_frequency (conn.freqRows s e)
    let topV ← query_top_by_volume (conn.volRows s e)
    qadLoop conn rest
      (dictAssign acc (s ++ '_' :: e) (RangeSnapshot.mk summary buckets topF topV))

/-- Lines 151-169: query_all_data.  The connection is acquired first (a
failing get_snowflake_connection raises before anything else); the loop
starts from the empty dict of line 155; conn.close() at line 168 runs only
after the whole loop finishes, so an exception raised by any query
propagates without the connection being closed.  The second component
records that fate. -/
def query_all_data (connect : Except PyErr Conn) (today : PyDate) :
    Except PyErr Cache × ConnFate :=
  match connect with
  | Except.error e => (Except.error e, ConnFate.neverAcquired)
  | Except.ok conn =>
    match qadLoop conn (get_date_ranges today) [] with
    | Except.ok cache => (Except.ok cache, ConnFate.released)
    | Except.error e => (Except.error e, ConnFate.leaked)

/-- Opening brace character, kept out of string literals. -/
def lbrace : Char := Char.ofNat 123

/-- Closing brace character, kept out of string literals. -/
def rbrace : Char := Char.ofNat 125

/-- Indentation of n spaces, as json.dumps with indent emits. -/
def pad (n : Nat) : List Char := List.replicate n ' '

/-- Lowercase hexadecimal digit. -/
def hexDigit (n : Nat) : Char :=
  if n < 10 then Char.ofNat (48 + n) else Char.ofNat (87 + n)

/-- A four-digit backslash-u escape. -/
def u4 (n : Nat) : List Char :=
  ['\\', 'u', hexDigit (n / 4096 % 16), hexDigit (n / 256 % 16),
   hexDigit (n / 16 % 16), hexDigit (n % 16)]

/-- JSON escaping of one character, following json.dumps defaults
(ensure_ascii): the two-character short escapes, control characters and
non-ASCII as backslash-u sequences, astral code points as surrogate pairs. -/
def escChar (c : Char) : List Char :=
  if c = '"' then ['\\', '"']
  else if c = '\\' then ['\\', '\\']
  else if c = '\n' then ['\\', 'n']
  else if c = '\t' then ['\\', 't']
  else if c = '\r' then ['\\', 'r']
  else if c = '\x08' then ['\\', 'b']
  else if c = '\x0c' then ['\\', 'f']
  else if c.toNat < 32 then u4 c.toNat
  else if c.toNat < 127 then [c]
  else if c.toNat < 65536 then u4 c.toNat
  else u4 (55296 + (c.toNat - 65536) / 1024) ++ u4 (56320 + (c.toNat - 65536) % 1024)

/-- A JSON string literal. -/
def jstr (s : List Char) : List Char := '"' :: s.flatMap escChar ++ ['"']

/-- Python repr of an int, as json.dumps emits integers. -/
def intRepr : Int → List Char
  | Int.ofNat n => natRepr n
  | Int.negSucc n => '-' :: natRepr (n + 1)

/-- Item separator of json.dumps with an indent: comma newline, each item
carrying its own leading indentation. -/
def joinItems (items : List (List Char)) : List Char := List.intercalate [',', '\n'] items

/-- A JSON object block of json.dumps with indent: empty objects collapse,
otherwise open brace, newline, the items, newline, closing indentation p,
closing brace. -/
def objBlock (p : Nat) (items : List (List Char)) : List Char :=
  match items with
  | [] => [lbrace, rbrace]
  | _ :: _ => lbrace :: '\n' :: joinItems items ++ '\n' :: pad p ++ [rbrace]

/-- A JSON array block of json.dumps with indent, like objBlock. -/
def arrBlock (p : Nat) (items : List (List Char)) : List Char :=
  match items with
  | [] => ['[', ']']
  | _ :: _ => '[' :: '\n' :: joinItems items ++ '\n' :: pad p ++ [']']

/-- One key-value line of an indented JSON object. -/
def kvLine (p : Nat) (k : List Char) (v : List Char) : List Char :=
  pad p ++ jstr k ++ ':' :: ' ' :: v

/-- Serialization of one summary dictionary at nesting depth 2 of
json.dumps(data_cache, indent=12); fr renders the float fields. -/
def dumpsSummary (fr : ℚ → List Char) (s : SummaryStats) : List Char :=
  objBlock 24
    [ kvLine 36 "uniqueUsers".data (intRepr s.uniqueUsers),
      kvLine 36 "totalTransactions".data (intRepr s.totalTransactions),
      kvLine 36 "totalVolume".data (fr s.totalVolume),
      kvLine 36 "avgDeposit".data (fr s.avgDeposit) ]

/-- Serialization of one bucket dictionary (an array element at depth 3). -/
def dumpsBucket (b : Bucket) : List Char :=
  objBlock 36
    [ kvLine 48 "range".data (jstr b.range),
      kvLine 48 "count".data (intRepr b.count) ]

/-- Serialization of one institution dictionary (an array element at depth 3). -/
def dumpsInstitution (fr : ℚ → List Char) (i : InstitutionAgg) : List Char :=
  objBlock 36
    [ kvLine 48 "name".data (jstr i.name),
      kvLine 48 "count".data (intRepr i.count),
      kvLine 48 "volume".data (fr i.volume) ]

/-- Serialization of one range snapshot dictionary at depth 1. -/
def dumpsSnapshot (fr : ℚ → List Char) (s : RangeSnapshot) : List Char :=
  objBlock 12
    [ kvLine 24 "summary".data (dumpsSummary fr s.summary),
      kvLine 24 "buckets".data
        (arrBlock 24 (s.buckets.map (fun b => pad 36 ++ dumpsBucket b))),
      kvLine 24 "topByFrequency".data
        (arrBlock 24 (s.topByFrequency.map (fun i => pad 36 ++ dumpsInstitution fr i))),
      kvLine 24 "topByVolume".data
        (arrBlock 24 (s.topByVolume.map (fun i => pad 36 ++ dumpsInstitution fr i))) ]

/-- json.dumps(data_cache, indent=12): the top-level object at depth 0.  The
renderer fr stands for Python float repr, the only numeric formatting not
modelled digit by digit. -/
def pyDumps (fr : ℚ → List Char) (c : Cache) : List Char :=
  objBlock 0 (c.map (fun kv => kvLine 12 kv.1 (dumpsSnapshot fr kv.2)))

/-- The opening marker of line 179. -/
def start_marker : List Char := "const dataCache = \x7b".data

/-- The closing marker of line 180: eight spaces, closing brace, semicolon. -/
def end_marker : List Char := "        \x7d;".data

/-- Line 189: the replacement block.  The f-string prepends the literal up to
the open brace (which json.dumps supplies as its first character), drops the
final close brace of the dump, and appends the closing marker text. -/
def new_data_cache (fr : ℚ → List Char) (c : Cache) : List Char :=
  "const dataCache = ".data ++ (pyDumps fr c).dropLast ++ end_marker

/-- The serialized cache between the two markers of the replacement block. -/
def serializedInterior (fr : ℚ → List Char) (c : Cache) : List Char :=
  ((pyDumps fr c).dropLast).drop 1

/-- Lines 171-195: update_html_file.  The none result models the ValueError
raise with no write; some h is the full content written back to the file.
Faithful to the source, end_idx adds len(end_marker) to the find result
before the -1 test, so a missing closing marker yields end_idx = 9 rather
than -1 and the test does not fire. -/
def update_html_file (fr : ℚ → List Char) (data_cache : Cache)
    (html_content : List Char) : Option (List Char) :=
  let start_idx : Int := pyFind html_content start_marker 0
  let end_idx : Int := pyFind html_content end_marker start_idx + (end_marker.length : Int)
  if start_idx = -1 ∨ end_idx = -1 then none
  else
    some (html_content.take start_idx.toNat ++ new_data_cache fr data_cache
          ++ html_content.drop end_idx.toNat)

/-- Lines 199-220: main.  It runs query_all_data then update_html_file inside
a try block whose except clause re-raises, so every failure propagates; the
second component is the artifact file content after the run (unchanged
unless update_html_file wrote). -/
def main (connect : Except PyErr Conn) (today : PyDate) (fr : ℚ → List Char)
    (artifact : List Char) : Except PyErr Unit × List Char :=
  match query_all_data connect today with
  | (Except.error e, _) => (Except.error e, artifact)
  | (Except.ok cache, _) =>
    match update_html_file fr cache artifact with
    | none => (Except.error (PyErr.valueError "Could not find dataCache section in HTML file"),
               artifact)
    | some newHtml => (Except.ok (), newHtml)

/-
  Infrastructure: characterization of the find scan and occurrence algebra.
-/

/-- Soundness of the fuel scan: a hit is in range, matches, and is the first
match at or after the start position. -/
theorem findIdxAux_eq_some {s pat : List Char} :
    ∀ (fuel i j : Nat), findIdxAux s pat fuel i = some j →
      i ≤ j ∧ j < i + fuel ∧ matchesAt s pat j = true ∧
        ∀ k, i ≤ k → k < j → matchesAt s pat k = false := by
  intro fuel
  induction fuel with
  | zero => intro i j h; simp [findIdxAux] at h
  | succ n ih =>
    intro i j h
    simp only [findIdxAux] at h
    by_cases hm : matchesAt s pat i = true
    · rw [if_pos hm] at h
      cases h
      exact ⟨Nat.le_refl _, by omega, hm, fun k hk1 hk2 => absurd hk1 (by omega)⟩
    · rw [if_neg hm] at h
      obtain ⟨h1, h2, h3, h4⟩ := ih (i + 1) j h
      refine ⟨by omega, by omega, h3, ?_⟩
      intro k hk1 hk2
      rcases Nat.eq_or_lt_of_le hk1 with heq | hlt
      · subst heq
        exact Bool.eq_false_iff.mpr hm
      · exact h4 k hlt hk2

/-- Soundness of findIdx. -/
theorem findIdx_eq_some {s pat : List Char} {i j : Nat} (h : findIdx s pat i = some j) :
    i ≤ j ∧ j ≤ s.length ∧ matchesAt s pat j = true ∧
      ∀ k, i ≤ k → k < j → matchesAt s pat k = false := by
  unfold findIdx at h
  obtain ⟨h1, h2, h3, h4⟩ := findIdxAux_eq_some _ i j h
  exact ⟨h1, by omega, h3, h4⟩

/-- Completeness of the fuel scan: the first match is returned. -/
theorem findIdxAux_of_first {s pat : List Char} :
    ∀ (fuel i j : Nat), i ≤ j → j < i + fuel → matchesAt s pat j = true →
      (∀ k, i ≤ k → k < j → matchesAt s pat k = false) →
      findIdxAux s pat fuel i = some j := by
  intro fuel
  induction fuel with
  | zero => intro i j h1 h2 _ _; omega
  | succ n ih =>
    intro i j h1 h2 h3 h4
    simp only [findIdxAux]
    rcases Nat.eq_or_lt_of_le h1 with heq | hlt
    · subst heq
      rw [if_pos h3]
    · rw [if_neg (by simp [h4 i (Nat.le_refl _) hlt])]
      exact ih (i + 1) j hlt (by omega) h3 (fun k hk1 hk2 => h4 k (by omega) hk2)

/-- Completeness of findIdx. -/
theorem findIdx_of_first {s pat : List Char} {i j : Nat} (h1 : i ≤ j) (h2 : j ≤ s.length)
    (h3 : matchesAt s pat j = true)
    (h4 : ∀ k, i ≤ k → k < j → matchesAt s pat k = false) :
    findIdx s pat i = some j :=
  findIdxAux_of_first _ i j h1 (by omega) h3 h4

/-- One unfolding step of findIdx past a non-matching position. -/
theorem findIdx_step {s pat : List Char} {i : Nat} (h : i ≤ s.length)
    (hm : matchesAt s pat i = false) :
    findIdx s pat i = findIdx s pat (i + 1) := by
  unfold findIdx
  have hfuel : s.length + 1 - i = (s.length + 1 - (i + 1)) + 1 := by omega
  rw [hfuel]
  simp [findIdxAux, hm]

/-- Pointwise characterization of the slice test for a nonempty pattern: the
window is in range and the characters agree position by position. -/
theorem matchesAt_true_iff {s pat : List Char} (hp : pat ≠ []) {j : Nat} :
    matchesAt s pat j = true ↔
      j + pat.length ≤ s.length ∧ ∀ t, t < pat.length → s[j + t]? = pat[t]? := by
  unfold matchesAt
  rw [decide_eq_true_iff]
  constructor
  · intro h
    have hpl : 0 < pat.length := List.length_pos.mpr hp
    have hlen := congrArg List.length h
    simp only [List.length_take, List.length_drop] at hlen
    have hle : j + pat.length ≤ s.length := by omega
    refine ⟨hle, fun t ht => ?_⟩
    have hg := congrArg (fun l => l[t]?) h
    simp only at hg
    rw [List.getElem?_take, if_pos ht, List.getElem?_drop] at hg
    exact hg
  · rintro ⟨hle, hpt⟩
    apply List.ext_getElem?
    intro n
    rw [List.getElem?_take]
    by_cases hn : n < pat.length
    · rw [if_pos hn, List.getElem?_drop]
      exact hpt n hn
    · rw [if_neg hn]
      exact (List.getElem?_eq_none (by omega)).symm

/-- A successful slice test fits inside the string. -/
theorem matchesAt_le_length {s pat : List Char} (hp : pat ≠ []) {j : Nat}
    (h : matchesAt s pat j = true) : j + pat.length ≤ s.length :=
  ((matchesAt_true_iff hp).mp h).1

/-- A match in the left part of an append is a match in the whole. -/
theorem matchesAt_append_left {a b pat : List Char} (hp : pat ≠ []) {j : Nat}
    (h : matchesAt a pat j = true) : matchesAt (a ++ b) pat j = true := by
  obtain ⟨hle, hpt⟩ := (matchesAt_true_iff hp).mp h
  refine (matchesAt_true_iff hp).mpr ⟨by simp only [List.length_append]; omega, fun t ht => ?_⟩
  rw [List.getElem?_append, if_pos (by omega)]
  exact hpt t ht

/-- A match wholly within the bounds of the left part localizes to it. -/
theorem matchesAt_of_append_left {a b pat : List Char} (hp : pat ≠ []) {j : Nat}
    (h : matchesAt (a ++ b) pat j = true) (hj : j + pat.length ≤ a.length) :
    matchesAt a pat j = true := by
  obtain ⟨_, hpt⟩ := (matchesAt_true_iff hp).mp h
  refine (matchesAt_true_iff hp).mpr ⟨hj, fun t ht => ?_⟩
  have hx := hpt t ht
  rw [List.getElem?_append, if_pos (by omega)] at hx
  exact hx

/-- A match in the right part of an append is a match in the whole, shifted
by the length of the left part. -/
theorem matchesAt_shift_right {a b pat : List Char} (hp : pat ≠ []) {k : Nat}
    (h : matchesAt b pat k = true) : matchesAt (a ++ b) pat (a.length + k) = true := by
  obtain ⟨hle, hpt⟩ := (matchesAt_true_iff hp).mp h
  refine (matchesAt_true_iff hp).mpr ⟨by simp only [List.length_append]; omega, fun t ht => ?_⟩
  rw [List.getElem?_append_right (by omega)]
  have harith : a.length + k + t - a.length = k + t := by omega
  rw [harith]
  exact hpt t ht

/-- A match starting past the left part of an append localizes to the right
part. -/
theorem matchesAt_of_append_right {a b pat : List Char} (hp : pat ≠ []) {j : Nat}
    (h : matchesAt (a ++ b) pat j = true) (hj : a.length ≤ j) :
    matchesAt b pat (j - a.length) = true := by
  obtain ⟨hle, hpt⟩ := (matchesAt_true_iff hp).mp h
  rw [List.length_append] at hle
  refine (matchesAt_true_iff hp).mpr ⟨by omega, fun t ht => ?_⟩
  have hx := hpt t ht
  rw [List.getElem?_append_right (by omega)] at hx
  have harith : j + t - a.length = j - a.length + t := by omega
  rw [harith] at hx
  exact hx

/-- Two overlapping matches of the same pattern force a border: the pattern
dropped by the offset equals its prefix of the overlap length. -/
theorem matchesAt_overlap {s pat : List Char} (hp : pat ≠ []) {j j2 : Nat}
    (h1 : matchesAt s pat j = true) (h2 : matchesAt s pat j2 = true)
    (hlt : j < j2) (hover : j2 < j + pat.length) :
    pat.drop (j2 - j) = pat.take (pat.length - (j2 - j)) := by
  obtain ⟨hle1, hpt1⟩ := (matchesAt_true_iff hp).mp h1
  obtain ⟨hle2, hpt2⟩ := (matchesAt_true_iff hp).mp h2
  apply List.ext_getElem?
  intro t
  rw [List.getElem?_drop, List.getElem?_take]
  by_cases ht : t < pat.length - (j2 - j)
  · rw [if_pos ht]
    have e1 := hpt1 ((j2 - j) + t) (by omega)
    have e2 := hpt2 t (by omega)
    have harith : j + ((j2 - j) + t) = j2 + t := by omega
    rw [harith] at e1
    exact e1.symm.trans e2
  · rw [if_neg ht]
    exact List.getElem?_eq_none (by omega)

/-- A pattern matches at position zero of anything it prefixes. -/
theorem matchesAt_self {pat r : List Char} : matchesAt (pat ++ r) pat 0 = true := by
  unfold matchesAt
  rw [decide_eq_true_iff, List.drop_zero, List.take_left]

/-- A pattern matches at the end of anything it suffixes. -/
theorem matchesAt_end {x pat : List Char} : matchesAt (x ++ pat) pat x.length = true := by
  unfold matchesAt
  rw [decide_eq_true_iff, List.drop_left, List.take_length]

/-- The opening marker has no nontrivial border. -/
theorem start_marker_no_border :
    ∀ d, d < 19 → 0 < d → start_marker.drop d ≠ start_marker.take (19 - d) := by decide

/-- The closing marker has no nontrivial border. -/
theorem end_marker_no_border :
    ∀ d, d < 10 → 0 < d → end_marker.drop d ≠ end_marker.take (10 - d) := by decide

theorem start_marker_length : start_marker.length = 19 := by decide

theorem end_marker_length : end_marker.length = 10 := by decide

theorem start_marker_ne_nil : start_marker ≠ [] := by decide

theorem end_marker_ne_nil : end_marker ≠ [] := by decide

/-- The closing marker cannot match at a position where the opening marker
matches: their first characters differ. -/
theorem no_end_match_at_start_match {s : List Char} {j : Nat}
    (h1 : matchesAt s start_marker j = true) :
    matchesAt s end_marker j = false := by
  by_contra hc
  rw [Bool.not_eq_false] at hc
  obtain ⟨hle1, hpt1⟩ := (matchesAt_true_iff start_marker_ne_nil).mp h1
  obtain ⟨hle2, hpt2⟩ := (matchesAt_true_iff end_marker_ne_nil).mp hc
  have e1 := hpt1 0 (by decide)
  have e2 := hpt2 0 (by decide)
  exact absurd (e1.symm.trans e2) (by decide)

/-- pyFind at a nonnegative start with a hit returns the hit. -/
theorem pyFind_eq_coe {s pat : List Char} {i j : Nat} (h : findIdx s pat i = some j) :
    pyFind s pat (i : Int) = (j : Int) := by
  unfold pyFind
  have hneg : ¬ ((i : Int) < 0) := by omega
  simp only [hneg, if_false, Int.toNat_natCast, h]

/-- pyFind at a nonnegative start with no hit returns -1. -/
theorem pyFind_eq_neg_one {s pat : List Char} {i : Nat} (h : findIdx s pat i = none) :
    pyFind s pat (i : Int) = -1 := by
  unfold pyFind
  have hneg : ¬ ((i : Int) < 0) := by omega
  simp only [hneg, if_false, Int.toNat_natCast, h]

/-- The top-level dump always opens with a brace and closes with one. -/
theorem pyDumps_shape (fr : ℚ → List Char) (c : Cache) :
    ∃ y, pyDumps fr c = lbrace :: (y ++ [rbrace]) := by
  unfold pyDumps objBlock
  cases c.map (fun kv => kvLine 12 kv.1 (dumpsSnapshot fr kv.2)) with
  | nil => exact ⟨[], rfl⟩
  | cons x xs =>
    refine ⟨'\n' :: (joinItems (x :: xs) ++ ['\n']), ?_⟩
    simp [pad]

/-- The opening marker is the literal of line 189 followed by the open brace
that json.dumps emits first. -/
theorem start_marker_split : start_marker = "const dataCache = ".data ++ [lbrace] := by decide

/-- The replacement block decomposes as opening marker, serialized interior,
closing marker. -/
theorem new_data_cache_eq (fr : ℚ → List Char) (c : Cache) :
    new_data_cache fr c = start_marker ++ serializedInterior fr c ++ end_marker := by
  obtain ⟨y, hy⟩ := pyDumps_shape fr c
  unfold new_data_cache serializedInterior
  rw [hy]
  rw [show lbrace :: (y ++ [rbrace]) = (lbrace :: y) ++ [rbrace] from rfl]
  rw [List.dropLast_concat]
  rw [show (lbrace :: y).drop 1 = y from rfl]
  rw [start_marker_split]
  simp



/-
  Claim theorems.
-/

/-- A float renderer for concrete instances: every rational prints as the
text 0.0, agreeing with Python repr on the value 0.0, the only float the
concrete instances below contain. -/
def frZero : ℚ → List Char := fun _ => "0.0".data

/-- A one-entry cache used by the C1 instance. -/
def c1Cache : Cache :=
  [("k".data, RangeSnapshot.mk (SummaryStats.mk 0 0 0 0) [] [] [])]

/-- An artifact that contains the opening marker at index 2 and no closing
marker anywhere. -/
def c1Html : List Char := "AAconst dataCache = \x7b no closing marker here".data

/-- C1: the claim says that whenever the opening marker is absent or the
closing marker is not found after it, update_html_file fails and writes
nothing.  The code violates the second half: on this artifact the opening
marker is present at 2, the closing marker is absent, find returns -1 so
end_idx becomes -1 + 10 = 9, the malformed-artifact test at line 185 does
not fire, and the function writes a spliced (corrupted) artifact instead of
raising. -/
theorem c1_missing_end_marker_still_writes :
    findIdx c1Html start_marker 0 = some 2 ∧
    findIdx c1Html end_marker 2 = none ∧
    update_html_file frZero c1Cache c1Html ≠ none := by decide

/-- C2: the claim says a zero-row range yields SummaryStats of all zeros with
nulls normalized.  In the code, the driver row for zero matching rows is
(0, 0, NULL, NULL) and float(None) at line 49 raises TypeError, so
query_summary_stats propagates an error instead of returning zeros. -/
theorem c2_zero_rows_raises :
    sqlSummaryRow [] "2025-11-01".data "2025-11-30".data = (0, 0, none, none) ∧
    query_summary_stats (Except.ok (sqlSummaryRow [] "2025-11-01".data "2025-11-30".data))
      = Except.error (PyErr.typeError
          "float() argument must be a string or a real number, not NoneType") :=
  ⟨rfl, rfl⟩

/-- A connection whose summary fetch fails on every range. -/
def c3FailConn : Conn :=
  { summaryRow := fun _ _ => Except.error (PyErr.dbError "query failure"),
    bucketRows := fun _ _ => Except.ok [],
    freqRows := fun _ _ => Except.ok [],
    volRows := fun _ _ => Except.ok [] }

/-- C3 counterexample: a run in which the connection is acquired (connect
succeeds) but the first summary query raises ends with the connection
leaked, not released: conn.close() at line 168 only runs after the loop
completes, and there is no try/finally. -/
theorem c3_failed_query_leaks_connection :
    (query_all_data (Except.ok c3FailConn) ⟨20373⟩).1
        = Except.error (PyErr.dbError "query failure") ∧
    (query_all_data (Except.ok c3FailConn) ⟨20373⟩).2 ≠ ConnFate.released := by decide

/-- C3 amended: once the connection is acquired, it is released exactly when
the whole aggregation loop succeeds; on any query failure the error
propagates with the connection still open. -/
theorem c3_release_iff_loop_succeeds (conn : Conn) (today : PyDate) :
    (query_all_data (Except.ok conn) today).2
      = (match (query_all_data (Except.ok conn) today).1 with
         | Except.ok _ => ConnFate.released
         | Except.error _ => ConnFate.leaked) := by
  unfold query_all_data
  cases hq : qadLoop conn (get_date_ranges today) [] with
  | ok c => simp [hq]
  | error e => simp [hq]

/-- C3 amended witness at a concrete connection and date. -/
theorem c3_amended_witness :
    (query_all_data (Except.ok c3FailConn) ⟨20373⟩).2
      = (match (query_all_data (Except.ok c3FailConn) ⟨20373⟩).1 with
         | Except.ok _ => ConnFate.released
         | Except.error _ => ConnFate.leaked) :=
  c3_release_iff_loop_succeeds c3FailConn ⟨20373⟩

/-- pyListIndex succeeds exactly on members of the list. -/
theorem pyListIndex_isSome_iff {l : List (List Char)} {x : List Char} :
    (pyListIndex l x).isSome = true ↔ x ∈ l := by
  induction l with
  | nil => simp [pyListIndex]
  | cons y ys ih =>
    simp only [pyListIndex]
    by_cases hxy : y = x
    · subst hxy
      simp
    · rw [if_neg hxy]
      constructor
      · intro h
        cases hpi : pyListIndex ys x with
        | none => rw [hpi] at h; simp at h
        | some n =>
          exact List.mem_cons_of_mem y (ih.mp (by rw [hpi]; rfl))
      · intro h
        rcases List.mem_cons.mp h with heq | hm
        · exact absurd heq.symm hxy
        · cases hpi : pyListIndex ys x with
          | none =>
            have hcontra := ih.mpr hm
            rw [hpi] at hcontra
            simp at hcontra
          | some n => rfl

/-- Unfolding of query_buckets on a successful fetch. -/
theorem query_buckets_ok_unfold (results : List (List Char × Int)) :
    query_buckets (Except.ok results)
      = (if (results.map (fun rc => Bucket.mk rc.1 rc.2)).all
            (fun b => (pyListIndex bucket_order b.range).isSome) then
          Except.ok (List.insertionSort bucketKeyLe
            (results.map (fun rc => Bucket.mk rc.1 rc.2)))
        else Except.error (PyErr.valueError "is not in list")) := rfl

/-- C7: whenever all fetched labels belong to the fixed seven-label set,
query_buckets returns exactly the fetched buckets (a permutation of the
rows, wrapped as records), sorted ascending by position in bucket_order,
which lists the labels in ascending order of lower amount bound; the input
row order is arbitrary. -/
theorem c7_buckets_sorted (results : List (List Char × Int))
    (h : ∀ p ∈ results, p.1 ∈ bucket_order) :
    ∃ l, query_buckets (Except.ok results) = Except.ok l ∧
      l.Perm (results.map (fun rc => Bucket.mk rc.1 rc.2)) ∧
      l.Sorted bucketKeyLe := by
  have hall : (results.map (fun rc => Bucket.mk rc.1 rc.2)).all
      (fun b => (pyListIndex bucket_order b.range).isSome) = true := by
    rw [List.all_eq_true]
    intro b hb
    obtain ⟨p, hp, hpb⟩ := List.mem_map.mp hb
    subst hpb
    exact pyListIndex_isSome_iff.mpr (h p hp)
  refine ⟨List.insertionSort bucketKeyLe (results.map (fun rc => Bucket.mk rc.1 rc.2)),
    ?_, ?_, ?_⟩
  · rw [query_buckets_ok_unfold, if_pos hall]
  · exact List.perm_insertionSort _ _
  · haveI : IsTotal Bucket bucketKeyLe := ⟨fun a b => Nat.le_total _ _⟩
    haveI : IsTrans Bucket bucketKeyLe := ⟨fun a b c => Nat.le_trans⟩
    exact List.sorted_insertionSort _ _

/-- C7 witness at a concrete out-of-order fetch. -/
theorem c7_witness :
    ∃ l, query_buckets (Except.ok
        [("$2,500+".data, (1 : Int)), ("$1-$250".data, 1), ("$500-$750".data, 1)])
        = Except.ok l ∧
      l.Perm ([("$2,500+".data, (1 : Int)), ("$1-$250".data, 1), ("$500-$750".data, 1)].map
        (fun rc => Bucket.mk rc.1 rc.2)) ∧
      l.Sorted bucketKeyLe :=
  c7_buckets_sorted _ (by decide)

/-- C10: a fetched row whose label lies outside the fixed seven-label set
makes the sort-key lookup bucket_order.index raise ValueError, so
query_buckets returns no list at all. -/
theorem c10_foreign_label_raises (results : List (List Char × Int))
    (h : ∃ p ∈ results, p.1 ∉ bucket_order) :
    query_buckets (Except.ok results)
      = Except.error (PyErr.valueError "is not in list") := by
  obtain ⟨p, hmem, hnot⟩ := h
  have hall : (results.map (fun rc => Bucket.mk rc.1 rc.2)).all
      (fun b => (pyListIndex bucket_order b.range).isSome) = false := by
    rw [Bool.eq_false_iff]
    intro hc
    rw [List.all_eq_true] at hc
    have := hc (Bucket.mk p.1 p.2) (List.mem_map_of_mem _ hmem)
    exact hnot (pyListIndex_isSome_iff.mp this)
  rw [query_buckets_ok_unfold, if_neg (by simp [hall])]

/-- C10 witness at a concrete foreign label. -/
theorem c10_witness :
    query_buckets (Except.ok [("bogus".data, (1 : Int))])
      = Except.error (PyErr.valueError "is not in list") :=
  c10_foreign_label_raises _ ⟨("bogus".data, 1), by decide, by decide⟩

/-- Splitting a successful Except bind into its two successful stages. -/
theorem except_bind_ok {α β : Type} {x : Except PyErr α} {f : α → Except PyErr β} {b : β}
    (h : (x >>= f) = Except.ok b) : ∃ a, x = Except.ok a ∧ f a = Except.ok b := by
  cases x with
  | error e => simp [Bind.bind, Except.bind] at h
  | ok a => exact ⟨a, rfl, by simpa [Bind.bind, Except.bind] using h⟩

/-- Membership in the key list after a dict assignment: the old keys plus
the assigned key. -/
theorem dictAssign_keys_mem {d : Cache} {k : List Char} {v : RangeSnapshot}
    {x : List Char} :
    x ∈ (dictAssign d k v).map Prod.fst ↔ x ∈ d.map Prod.fst ∨ x = k := by
  unfold dictAssign
  by_cases hk : k ∈ d.map Prod.fst
  · rw [if_pos hk, List.map_map]
    constructor
    · intro hx
      obtain ⟨kv, hkv, hfst⟩ := List.mem_map.mp hx
      by_cases hkvk : kv.1 = k
      · right
        rw [← hfst]
        simp [hkvk]
      · left
        refine List.mem_map.mpr ⟨kv, hkv, ?_⟩
        rw [← hfst]
        simp [hkvk]
    · intro hx
      rcases hx with hx | rfl
      · obtain ⟨kv, hkv, hfst⟩ := List.mem_map.mp hx
        refine List.mem_map.mpr ⟨kv, hkv, ?_⟩
        by_cases hkvk : kv.1 = k
        · simp [hkvk, ← hfst]
        · simp only [Function.comp_apply, if_neg hkvk]
          exact hfst
      · obtain ⟨kv, hkv, hfst⟩ := List.mem_map.mp hk
        refine List.mem_map.mpr ⟨kv, hkv, ?_⟩
        simp [hfst]
  · rw [if_neg hk]
    simp only [List.map_append, List.mem_append, List.map_cons, List.map_nil,
      List.mem_singleton]

/-- Keys already in the accumulator survive the rest of the loop. -/
theorem qadLoop_keys_mono (conn : Conn) :
    ∀ (rs : List (String × List Char × List Char)) (acc cache : Cache),
      qadLoop conn rs acc = Except.ok cache →
      ∀ x ∈ acc.map Prod.fst, x ∈ cache.map Prod.fst := by
  intro rs
  induction rs with
  | nil =>
    intro acc cache h x hx
    simp only [qadLoop] at h
    cases h
    exact hx
  | cons q rest ih =>
    intro acc cache h x hx
    obtain ⟨name, s, e⟩ := q
    simp only [qadLoop] at h
    obtain ⟨summ, hs, h⟩ := except_bind_ok h
    obtain ⟨bks, hbk, h⟩ := except_bind_ok h
    obtain ⟨tf, htf, h⟩ := except_bind_ok h
    obtain ⟨tv, htv, h⟩ := except_bind_ok h
    exact ih _ cache h x (dictAssign_keys_mem.mpr (Or.inl hx))

/-- Every planned range key ends up among the cache keys. -/
theorem qadLoop_keys_complete (conn : Conn) :
    ∀ (rs : List (String × List Char × List Char)) (acc cache : Cache),
      qadLoop conn rs acc = Except.ok cache →
      ∀ r ∈ rs, r.2.1 ++ '_' :: r.2.2 ∈ cache.map Prod.fst := by
  intro rs
  induction rs with
  | nil => intro acc cache h r hr; simp at hr
  | cons q rest ih =>
    intro acc cache h r hr
    obtain ⟨name, s, e⟩ := q
    simp only [qadLoop] at h
    obtain ⟨summ, hs, h⟩ := except_bind_ok h
    obtain ⟨bks, hbk, h⟩ := except_bind_ok h
    obtain ⟨tf, htf, h⟩ := except_bind_ok h
    obtain ⟨tv, htv, h⟩ := except_bind_ok h
    rcases List.mem_cons.mp hr with heq | hmem
    · subst heq
      exact qadLoop_keys_mono conn rest _ cache h _
        (dictAssign_keys_mem.mpr (Or.inr rfl))
    · exact ih _ cache h r hmem

/-- Every cache key at the end of the loop came from the accumulator or
from some planned range. -/
theorem qadLoop_keys_sound (conn : Conn) :
    ∀ (rs : List (String × List Char × List Char)) (acc cache : Cache),
      qadLoop conn rs acc = Except.ok cache →
      ∀ x ∈ cache.map Prod.fst,
        x ∈ acc.map Prod.fst ∨ ∃ r ∈ rs, x = r.2.1 ++ '_' :: r.2.2 := by
  intro rs
  induction rs with
  | nil =>
    intro acc cache h x hx
    simp only [qadLoop] at h
    cases h
    exact Or.inl hx
  | cons q rest ih =>
    intro acc cache h x hx
    obtain ⟨name, s, e⟩ := q
    simp only [qadLoop] at h
    obtain ⟨summ, hs, h⟩ := except_bind_ok h
    obtain ⟨bks, hbk, h⟩ := except_bind_ok h
    obtain ⟨tf, htf, h⟩ := except_bind_ok h
    obtain ⟨tv, htv, h⟩ := except_bind_ok h
    rcases ih _ cache h x hx with hacc | ⟨r, hr, hxr⟩
    · rcases dictAssign_keys_mem.mp hacc with hacc2 | rfl
      · exact Or.inl hacc2
      · exact Or.inr ⟨(name, s, e), List.mem_cons_self _ _, rfl⟩
    · exact Or.inr ⟨r, List.mem_cons_of_mem _ hr, hxr⟩

/-- A successful loop means every planned range had all four of its queries
succeed. -/
theorem qadLoop_ok_all (conn : Conn) :
    ∀ (rs : List (String × List Char × List Char)) (acc cache : Cache),
      qadLoop conn rs acc = Except.ok cache →
      ∀ r ∈ rs,
        (∃ x, query_summary_stats (conn.summaryRow r.2.1 r.2.2) = Except.ok x) ∧
        (∃ x, query_buckets (conn.bucketRows r.2.1 r.2.2) = Except.ok x) ∧
        (∃ x, query_top_by_frequency (conn.freqRows r.2.1 r.2.2) = Except.ok x) ∧
        (∃ x, query_top_by_volume (conn.volRows r.2.1 r.2.2) = Except.ok x) := by
  intro rs
  induction rs with
  | nil => intro acc cache h r hr; simp at hr
  | cons q rest ih =>
    intro acc cache h r hr
    obtain ⟨name, s, e⟩ := q
    simp only [qadLoop] at h
    obtain ⟨summ, hs, h⟩ := except_bind_ok h
    obtain ⟨bks, hbk, h⟩ := except_bind_ok h
    obtain ⟨tf, htf, h⟩ := except_bind_ok h
    obtain ⟨tv, htv, h⟩ := except_bind_ok h
    rcases List.mem_cons.mp hr with heq | hmem
    · subst heq
      exact ⟨⟨summ, hs⟩, ⟨bks, hbk⟩, ⟨tf, htf⟩, ⟨tv, htv⟩⟩
    · exact ih _ cache h r hmem

/-- C8: in every successfully built cache, each planned range's entry is
keyed by exactly the canonical string start underscore end (Python dict
assignment overwrites in place when a rolling window coincides with a
calendar-month window, so two such ranges share the one entry under their
common canonical key), every cache key is the canonical key of some planned
range, and in particular the august_2025 calendar-month range is keyed
2025-08-01_2025-08-31, whatever the current date is. -/
theorem c8_cache_keys (conn : Conn) (today : PyDate) (cache : Cache)
    (h : qadLoop conn (get_date_ranges today) [] = Except.ok cache) :
    (∀ r ∈ get_date_ranges today, r.2.1 ++ '_' :: r.2.2 ∈ cache.map Prod.fst) ∧
    (∀ k ∈ cache.map Prod.fst, ∃ r ∈ get_date_ranges today,
      k = r.2.1 ++ '_' :: r.2.2) ∧
    "2025-08-01_2025-08-31".data ∈ cache.map Prod.fst := by
  refine ⟨qadLoop_keys_complete conn (get_date_ranges today) [] cache h, ?_, ?_⟩
  · intro k hk
    rcases qadLoop_keys_sound conn (get_date_ranges today) [] cache h k hk with hacc | hr
    · simp at hacc
    · exact hr
  · have haug := qadLoop_keys_complete conn (get_date_ranges today) [] cache h
      ("august_2025", "2025-08-01".data, "2025-08-31".data) (by simp [get_date_ranges])
    have hkey : ("august_2025", "2025-08-01".data, "2025-08-31".data).2.1
        ++ '_' :: ("august_2025", "2025-08-01".data, "2025-08-31".data).2.2
        = "2025-08-01_2025-08-31".data := by decide
    rwa [hkey] at haug

/-- A connection returning fixed healthy rows for every range. -/
def qaOkConn : Conn :=
  { summaryRow := fun _ _ => Except.ok (3, 5, some 700, some 140),
    bucketRows := fun _ _ => Except.ok [("$1-$250".data, 2)],
    freqRows := fun _ _ => Except.ok [("ACME BANK".data, 5, 700)],
    volRows := fun _ _ => Except.ok [("ACME BANK".data, 5, 700)] }

/-- The cache the healthy connection produces on 2025-10-12. -/
def c8cache : Cache :=
  (qadLoop qaOkConn (get_date_ranges ⟨20373⟩) []).toOption.getD []

/-- C8 witness: a concrete successful run whose cache carries the
august_2025 canonical key. -/
theorem c8_witness :
    qadLoop qaOkConn (get_date_ranges ⟨20373⟩) [] = Except.ok c8cache ∧
    "2025-08-01_2025-08-31".data ∈ c8cache.map Prod.fst :=
  ⟨rfl, (c8_cache_keys qaOkConn ⟨20373⟩ c8cache rfl).2.2⟩

/-- C6: if acquiring the connection fails, or any planned range has any of
its four queries failing, the run aborts with the error propagated and the
artifact text stays byte-identical: update_html_file runs only after
query_all_data has produced the complete cache. -/
theorem c6_failure_leaves_artifact (connect : Except PyErr Conn) (today : PyDate)
    (fr : ℚ → List Char) (artifact : List Char)
    (h : (∃ e, connect = Except.error e) ∨
      (∃ conn, connect = Except.ok conn ∧ ∃ r ∈ get_date_ranges today,
        (∃ e, query_summary_stats (conn.summaryRow r.2.1 r.2.2) = Except.error e) ∨
        (∃ e, query_buckets (conn.bucketRows r.2.1 r.2.2) = Except.error e) ∨
        (∃ e, query_top_by_frequency (conn.freqRows r.2.1 r.2.2) = Except.error e) ∨
        (∃ e, query_top_by_volume (conn.volRows r.2.1 r.2.2) = Except.error e))) :
    ∃ e, main connect today fr artifact = (Except.error e, artifact) := by
  rcases h with ⟨e, rfl⟩ | ⟨conn, rfl, r, hr, hfail⟩
  · exact ⟨e, rfl⟩
  · cases hq : qadLoop conn (get_date_ranges today) [] with
    | error e2 =>
      refine ⟨e2, ?_⟩
      simp [main, query_all_data, hq]
    | ok cache =>
      exfalso
      have hall := qadLoop_ok_all conn (get_date_ranges today) [] cache hq r hr
      rcases hfail with ⟨e, hqe⟩ | ⟨e, hqe⟩ | ⟨e, hqe⟩ | ⟨e, hqe⟩
      · obtain ⟨x, hx⟩ := hall.1
        rw [hqe] at hx
        simp at hx
      · obtain ⟨x, hx⟩ := hall.2.1
        rw [hqe] at hx
        simp at hx
      · obtain ⟨x, hx⟩ := hall.2.2.1
        rw [hqe] at hx
        simp at hx
      · obtain ⟨x, hx⟩ := hall.2.2.2
        rw [hqe] at hx
        simp at hx

/-- A connection that fails on the first summary fetch of every range. -/
def c6FailConn : Conn :=
  { summaryRow := fun _ _ => Except.error (PyErr.dbError "connection reset"),
    bucketRows := fun _ _ => Except.ok [],
    freqRows := fun _ _ => Except.ok [],
    volRows := fun _ _ => Except.ok [] }

/-- C6 witness: a concrete aborted run that leaves the artifact unchanged. -/
theorem c6_witness :
    ∃ e, main (Except.ok c6FailConn) ⟨20373⟩ frZero "artifact text".data
      = (Except.error e, "artifact text".data) :=
  c6_failure_leaves_artifact _ _ _ _
    (Or.inr ⟨c6FailConn, rfl,
      ⟨("august_2025", "2025-08-01".data, "2025-08-31".data), by decide,
        Or.inl ⟨PyErr.dbError "connection reset", rfl⟩⟩⟩)

/-- C9: the closing-marker search of line 183 starts at the opening marker
position start_idx, but no closing marker can match at that position (the
markers differ in their first character), so the search behaves identically
to one starting strictly after the opening position, and the closing
position it selects is strictly greater than the opening position: a
closing-marker-like substring lying before the opening marker is never
chosen as the end of the block. -/
theorem c9_end_search_strictly_after (html : List Char) (s : Nat)
    (hs : findIdx html start_marker 0 = some s) :
    findIdx html end_marker s = findIdx html end_marker (s + 1) ∧
    s < (findIdx html end_marker s).getD (s + 1) := by
  obtain ⟨_, hsle, hsm, _⟩ := findIdx_eq_some hs
  have hnem : matchesAt html end_marker s = false := no_end_match_at_start_match hsm
  refine ⟨findIdx_step hsle hnem, ?_⟩
  cases hfe : findIdx html end_marker s with
  | none => simp
  | some e =>
    simp only [Option.getD_some]
    obtain ⟨hle, _, hm, _⟩ := findIdx_eq_some hfe
    rcases Nat.eq_or_lt_of_le hle with heq | hlt
    · subst heq
      rw [hnem] at hm
      exact absurd hm (by simp)
    · exact hlt

/-- An artifact with a closing-marker lookalike before the opening marker. -/
def c9Html : List Char := "        \x7d;Zconst dataCache = \x7bY        \x7d;".data

/-- C9 witness at a concrete artifact whose opening marker sits at 11, after
a closing-marker lookalike at 0. -/
theorem c9_witness :
    findIdx c9Html end_marker 11 = findIdx c9Html end_marker 12 ∧
    11 < (findIdx c9Html end_marker 11).getD 12 :=
  c9_end_search_strictly_after c9Html 11 (by decide)

/-- Behavior of update_html_file when the opening marker is first found at s
and the closing marker is first found at e at or after s: the write keeps
the first s bytes, emits opening marker, serialized cache interior, closing
marker, and keeps everything from e + len(end_marker) on. -/
theorem update_found_eq (fr : ℚ → List Char) (c : Cache) (html : List Char) (s e : Nat)
    (hs : findIdx html start_marker 0 = some s)
    (he : findIdx html end_marker s = some e) :
    update_html_file fr c html
      = some (html.take s ++ (start_marker ++ serializedInterior fr c ++ end_marker)
          ++ html.drop (e + end_marker.length)) := by
  have h0 : pyFind html start_marker 0 = (s : Int) := by
    have hx := @pyFind_eq_coe html start_marker 0 s hs
    simpa using hx
  have h1 : pyFind html end_marker (s : Int) = (e : Int) := pyFind_eq_coe he
  simp only [update_html_file, h0, h1]
  rw [if_neg ?hcond]
  case hcond =>
    push_neg
    constructor
    · omega
    · omega
  have h2 : ((s : Int)).toNat = s := Int.toNat_natCast s
  have h3 : ((e : Int) + (end_marker.length : Int)).toNat = e + end_marker.length := by omega
  rw [h2, h3, new_data_cache_eq]

/-- C5: whenever the artifact holds the opening marker (first occurrence at
s) and, at or after it, the closing marker (first such occurrence at e),
update_html_file replaces exactly the bytes from s up to e plus the marker
length by opening marker, serialized cache, closing marker, and every byte
before s and from the end of the closing marker on is carried over
unchanged. -/
theorem c5_exact_replacement (fr : ℚ → List Char) (c : Cache) (html : List Char)
    (s e : Nat)
    (hs : findIdx html start_marker 0 = some s)
    (he : findIdx html end_marker s = some e) :
    update_html_file fr c html
      = some (html.take s ++ (start_marker ++ serializedInterior fr c ++ end_marker)
          ++ html.drop (e + end_marker.length)) :=
  update_found_eq fr c html s e hs he

/-- A well-formed artifact for the C5 witness: opening marker at 2, closing
marker at 23. -/
def c5Html : List Char := "ABconst dataCache = \x7bxx        \x7d;CD".data

/-- A small cache for the C5 witness. -/
def c5Cache : Cache :=
  [("2025-08-01_2025-08-31".data,
    RangeSnapshot.mk (SummaryStats.mk 1 2 0 0) [Bucket.mk "$1-$250".data 2] [] [])]

/-- C5 witness at a concrete artifact and cache. -/
theorem c5_witness :
    update_html_file frZero c5Cache c5Html
      = some (c5Html.take 2 ++ (start_marker ++ serializedInterior frZero c5Cache
          ++ end_marker) ++ c5Html.drop (23 + end_marker.length)) :=
  c5_exact_replacement frZero c5Cache c5Html 2 23 (by decide) (by decide)

/-- A cache whose institution name embeds the closing-marker text in its
interior; str.strip leaves it intact and json.dumps copies it into the
artifact unescaped (spaces, brace and semicolon need no JSON escape). -/
def c4BadCache : Cache :=
  [("2025-08-01_2025-08-31".data,
    RangeSnapshot.mk (SummaryStats.mk 0 0 0 0) []
      [InstitutionAgg.mk "X        \x7d;Y".data 1 0] [])]

/-- A well-formed artifact: opening marker at 1, closing marker at 21. -/
def c4Html : List Char := "Aconst dataCache = \x7bx        \x7d;B".data

/-- C4 counterexample: with the embedded closing-marker text in a cache
value, the second application of the injector finds that embedded text as
the closing marker and splices a different (longer) artifact than the
first application produced, refuting idempotence for arbitrary caches. -/
theorem c4_not_idempotent :
    (update_html_file frZero c4BadCache c4Html).bind (update_html_file frZero c4BadCache)
      ≠ update_html_file frZero c4BadCache c4Html := by decide

/-- C4 amended: the injector is idempotent on every artifact containing the
marker pair, for every cache whose freshly serialized block contains the
closing marker only as its final ten characters (equivalently: the
serialized cache text itself contains no closing-marker substring); the
counterexample above shows the restriction cannot be dropped. -/
theorem c4_idempotent_when_block_clean (fr : ℚ → List Char) (c : Cache)
    (html h1 : List Char) (s e : Nat)
    (hs : findIdx html start_marker 0 = some s)
    (he : findIdx html end_marker s = some e)
    (hb : findIdx (new_data_cache fr c) end_marker 0
        = some ((new_data_cache fr c).length - end_marker.length))
    (hrun : update_html_file fr c html = some h1) :
    update_html_file fr c h1 = some h1 := by
  obtain ⟨_, hsle, hsmatch, hsmin⟩ := findIdx_eq_some hs
  set X := serializedInterior fr c with hX
  set P := html.take s with hP
  set T := html.drop (e + end_marker.length) with hT
  have hPlen : P.length = s := by
    rw [hP, List.length_take]
    omega
  have hh1 : h1 = P ++ (start_marker ++ X ++ end_marker) ++ T := by
    have h2 := update_found_eq fr c html s e hs he
    rw [hrun] at h2
    exact Option.some.inj h2
  rw [new_data_cache_eq] at hb
  have hDlen : (start_marker ++ X ++ end_marker).length = 29 + X.length := by
    simp only [List.length_append, start_marker_length, end_marker_length]
    omega
  obtain ⟨_, hble, hbend, hbmin⟩ := findIdx_eq_some hb
  have hh1assoc : h1 = P ++ ((start_marker ++ X ++ end_marker) ++ T) := by
    rw [hh1, List.append_assoc]
  have hD0 : matchesAt ((start_marker ++ X ++ end_marker) ++ T) start_marker 0 = true := by
    have hre : (start_marker ++ X ++ end_marker) ++ T
        = start_marker ++ (X ++ (end_marker ++ T)) := by simp [List.append_assoc]
    rw [hre]
    exact matchesAt_self
  have hmatch_s : matchesAt h1 start_marker s = true := by
    have hsh := @matchesAt_shift_right P ((start_marker ++ X ++ end_marker) ++ T)
      start_marker start_marker_ne_nil 0 hD0
    rw [Nat.add_zero, hPlen] at hsh
    rw [hh1assoc]
    exact hsh
  have hlen_h1 : s ≤ h1.length := by
    have hx := matchesAt_le_length start_marker_ne_nil hmatch_s
    omega
  have hminA : ∀ k, 0 ≤ k → k < s → matchesAt h1 start_marker k = false := by
    intro k _ hk
    by_contra hc
    rw [Bool.not_eq_false] at hc
    by_cases hcase : k + start_marker.length ≤ s
    · have hpk : matchesAt P start_marker k = true := by
        refine @matchesAt_of_append_left P ((start_marker ++ X ++ end_marker) ++ T)
          start_marker start_marker_ne_nil k ?_ (by omega)
        rw [← hh1assoc]
        exact hc
      have hhtml : matchesAt html start_marker k = true := by
        have hx := @matchesAt_append_left P (html.drop s) start_marker
          start_marker_ne_nil k hpk
        rw [hP, List.take_append_drop] at hx
        exact hx
      have hfalse := hsmin k (Nat.zero_le k) hk
      rw [hhtml] at hfalse
      exact absurd hfalse (by simp)
    · push_neg at hcase
      rw [start_marker_length] at hcase
      have hborder := matchesAt_overlap start_marker_ne_nil hc hmatch_s hk
        (by rw [start_marker_length]; omega)
      rw [start_marker_length] at hborder
      exact start_marker_no_border (s - k) (by omega) (by omega) hborder
  have hA : findIdx h1 start_marker 0 = some s :=
    findIdx_of_first (Nat.zero_le s) hlen_h1 hmatch_s (fun k hk1 hk2 => hminA k hk1 hk2)
  have hmatch_t : matchesAt h1 end_marker (s + (19 + X.length)) = true := by
    have hsplit : h1 = (P ++ (start_marker ++ X)) ++ end_marker ++ T := by
      rw [hh1]
      simp [List.append_assoc]
    have hidx : (P ++ (start_marker ++ X)).length = s + (19 + X.length) := by
      simp only [List.length_append, hPlen, start_marker_length]
    have hend := @matchesAt_append_left ((P ++ (start_marker ++ X)) ++ end_marker) T
      end_marker end_marker_ne_nil (P ++ (start_marker ++ X)).length
      (@matchesAt_end (P ++ (start_marker ++ X)) end_marker)
    rw [hidx] at hend
    rw [hsplit]
    exact hend
  have hminB : ∀ k, s ≤ k → k < s + (19 + X.length) → matchesAt h1 end_marker k = false := by
    intro k hk1 hk2
    by_contra hc
    rw [Bool.not_eq_false] at hc
    have hck : matchesAt (P ++ ((start_marker ++ X ++ end_marker) ++ T)) end_marker k = true := by
      rw [← hh1assoc]
      exact hc
    have h2' := @matchesAt_of_append_right P ((start_marker ++ X ++ end_marker) ++ T)
      end_marker end_marker_ne_nil k hck (by omega)
    have h3' := @matchesAt_of_append_left (start_marker ++ X ++ end_marker) T
      end_marker end_marker_ne_nil (k - P.length) h2'
      (by rw [hPlen, hDlen, end_marker_length]; omega)
    rw [hPlen] at h3'
    have hfalse := hbmin (k - s) (Nat.zero_le _)
      (by rw [hDlen, end_marker_length]; omega)
    rw [h3'] at hfalse
    exact absurd hfalse (by simp)
  have hB : findIdx h1 end_marker s = some (s + (19 + X.length)) := by
    refine findIdx_of_first (by omega) ?_ hmatch_t hminB
    have hx := matchesAt_le_length end_marker_ne_nil hmatch_t
    omega
  have hfinal := update_found_eq fr c h1 s (s + (19 + X.length)) hA hB
  rw [hfinal]
  have htake : h1.take s = P := by
    rw [hh1assoc, ← hPlen]
    exact List.take_left P ((start_marker ++ X ++ end_marker) ++ T)
  have hdrop : h1.drop (s + (19 + X.length) + end_marker.length) = T := by
    have hlen2 : (P ++ (start_marker ++ X ++ end_marker)).length
        = s + (19 + X.length) + end_marker.length := by
      simp only [List.length_append, hPlen, start_marker_length, end_marker_length]
      omega
    rw [hh1, ← hlen2]
    exact List.drop_left _ _
  rw [htake, hdrop, ← hX, ← hh1]

/-- A cache whose serialization is free of closing-marker lookalikes. -/
def c4GoodCache : Cache :=
  [("2025-08-01_2025-08-31".data,
    RangeSnapshot.mk (SummaryStats.mk 1 2 0 0) [Bucket.mk "$1-$250".data 2] [] [])]

/-- A well-formed artifact: opening marker at 2, closing marker at 32. -/
def c4GoodHtml : List Char := "ABconst dataCache = \x7bplaceholder        \x7d;CD".data

/-- The artifact produced by the first application on the clean instance. -/
def c4GoodOut : List Char :=
  (update_html_file frZero c4GoodCache c4GoodHtml).getD []

/-- C4 witness: the clean concrete instance really is idempotent. -/
theorem c4_witness :
    update_html_file frZero c4GoodCache c4GoodOut = some c4GoodOut :=
  c4_idempotent_when_block_clean frZero c4GoodCache c4GoodHtml c4GoodOut 2 32
    (by decide) (by decide) (by decide) (by decide)

end DirectDeposit
